import Mathlib

/-!
Verification of the crosspost broadcaster and the Bluesky posting
strategy against the repository specification.

Functions present in the repository sources (src/strategies/bluesky.js,
src/bin.js) are translated directly.  Components whose implementation
files are not among the sources — the facet detector
(src/util/bluesky-facets.js), the post-option validator
(src/util/options.js) and the Client broadcaster (src/client.js) — are
modelled from the specification, as marked in their doc comments.

Strings are modelled as Lean strings; a Lean Char is one Unicode scalar
value, matching the code points that JavaScript string iteration
produces, and byte offsets are computed with the UTF-8 size of each
scalar.
-/

namespace Crosspost

/-! ## Character classes and length measures -/

/-- Whitespace test matching the JavaScript regular-expression class
backslash-s on the characters occurring in message text. -/
def isWs (c : Char) : Bool :=
  c = ' ' || c = '\n' || c = '\t' || c = '\r'

/-- Characters allowed inside a mention handle: alphanumerics, dot and
hyphen, so that domain-like handles such as bob.example.com parse. -/
def isHandleChar (c : Char) : Bool :=
  c.isAlphanum || c = '.' || c = '-'

/-- UTF-8 byte length of a character sequence. -/
def utf8Len (cs : List Char) : Nat := (cs.map Char.utf8Size).sum

/-- Number of UTF-16 code units a character occupies; the value the
JavaScript length property adds for this character. -/
def utf16Size (c : Char) : Nat := if c.toNat < 65536 then 1 else 2

/-- UTF-16 code-unit length of a character sequence; the JavaScript
length of the corresponding string. -/
def utf16Len (cs : List Char) : Nat := (cs.map utf16Size).sum

def httpChars : List Char := ['h', 't', 't', 'p', ':', '/', '/']

def httpsChars : List Char := ['h', 't', 't', 'p', 's', ':', '/', '/']

/-- Tests that the character at position k exists and is not whitespace. -/
def nonWsAt (k : Nat) (cs : List Char) : Bool :=
  match (cs.drop k).head? with
  | some c => !isWs c
  | none => false

/-- URL match test at the head of the character list, mirroring the
regular expression https?://[^ \s]+ used by calculateMessageLength in
src/strategies/bluesky.js: a scheme prefix followed by at least one
non-whitespace character. -/
def urlStart (cs : List Char) : Bool :=
  (httpsChars.isPrefixOf cs && nonWsAt 8 cs) ||
  (httpChars.isPrefixOf cs && nonWsAt 7 cs)

/-! ## Facets -/

/-- One rich-text feature, mirroring the JavaScript feature objects with
a dollar-type tag.  A mention feature stores the handle in its did field
before resolution and the durable identifier after resolution, exactly
as in src/strategies/bluesky.js resolveMentionFacets. -/
inductive Feature where
  | mention (did : String)
  | link (uri : String)
  | tag (tagText : String)
deriving DecidableEq, Repr

/-- One facet: a byte range (the JavaScript index object with byteStart
and byteEnd) plus its feature list. -/
structure Facet where
  byteStart : Nat
  byteEnd : Nat
  features : List Feature
deriving DecidableEq, Repr

/-! ## Facet detector, modelled from the spec -/

/-- Token of the message scanner: a single plain character, a bare URL
token, or a mention with its handle. -/
inductive Tok where
  | plain (c : Char)
  | url (raw : List Char)
  | mention (handle : List Char)
deriving DecidableEq, Repr

/-- Three-character ellipsis marker appended to truncated URLs. -/
def ellipsisChars : List Char := ['.', '.', '.']

/-- Modelled from the spec: display form of a URL token (spec section
4.3) — a URL strictly longer than 27 characters is rendered as its
first 24 characters plus the 3-character ellipsis marker; otherwise it
is rendered unchanged. -/
def renderUrl (raw : List Char) : List Char :=
  if 27 < raw.length then raw.take 24 ++ ellipsisChars else raw

/-- Modelled from the spec: the scanner of the facet detector (spec
section 4.2) — bare URLs are http or https scheme followed by a
non-whitespace token, matched at any position exactly like the URL
regular expression of calculateMessageLength; mentions are an at-sign
at a word boundary followed by a non-empty run of handle characters;
a URL claims its whole span first, so an at-sign inside a URL is never
read as a mention.  The fuel argument is the length of the remaining
input, which every step decreases. -/
def tokenize : Nat → Bool → List Char → List Tok
  | 0, _, _ => []
  | _ + 1, _, [] => []
  | fuel + 1, bnd, c :: cs =>
    if urlStart (c :: cs) then
      Tok.url ((c :: cs).takeWhile (fun x => !isWs x)) ::
        tokenize fuel false ((c :: cs).dropWhile (fun x => !isWs x))
    else if bnd && c == '@' && !(cs.takeWhile isHandleChar).isEmpty then
      Tok.mention (cs.takeWhile isHandleChar) ::
        tokenize fuel false (cs.dropWhile isHandleChar)
    else
      Tok.plain c :: tokenize fuel (isWs c) cs

/-- Modelled from the spec: rendering of one token at a byte offset —
the emitted display characters plus the facet the token contributes, if
any.  The target of a link facet always carries the full original URL
even when the displayed text is shortened (spec sections 4.2 and 4.3). -/
def emitTok (off : Nat) : Tok → List Char × Option Facet
  | Tok.plain c => ([c], none)
  | Tok.url raw =>
    (renderUrl raw,
      some ⟨off, off + utf8Len (renderUrl raw), [Feature.link (String.mk raw)]⟩)
  | Tok.mention h =>
    ('@' :: h,
      some ⟨off, off + utf8Len ('@' :: h), [Feature.mention (String.mk h)]⟩)

/-- Modelled from the spec: emission of all tokens, threading the UTF-8
byte offset of the rewritten text. -/
def emitAll : Nat → List Tok → List Char × List Facet
  | _, [] => ([], [])
  | off, t :: ts =>
    ((emitTok off t).1 ++ (emitAll (off + utf8Len (emitTok off t).1) ts).1,
      (emitTok off t).2.toList ++ (emitAll (off + utf8Len (emitTok off t).1) ts).2)

/-- Result of the facet detector: possibly rewritten text plus facets. -/
structure DetectResult where
  text : String
  facets : List Facet
deriving DecidableEq, Repr

/-- Modelled from the spec: detectFacets (src/util/bluesky-facets.js) is
imported by src/strategies/bluesky.js but its implementation file is not
among the sources.  Following spec sections 4.2 and 4.3 and the test
expectations in src/tests/strategies/bluesky.test.js, it scans the plain
text, rewrites over-long URLs to their truncated display form, and
returns the rewritten text together with the facet list whose offsets
index the UTF-8 byte sequence of that rewritten text. -/
def detectFacets (message : String) : DetectResult :=
  ⟨String.mk (emitAll 0 (tokenize message.data.length true message.data)).1,
    (emitAll 0 (tokenize message.data.length true message.data)).2⟩

/-! ## Mention resolution (translated from resolveMentionFacets in
src/strategies/bluesky.js, lines 209-253) -/

/-- Processing of one feature by resolveMentionFacets: a mention feature
with a non-empty did field has its handle resolved — on failure the
feature is skipped (the catch-continue in the source) — and every other
feature is kept as-is.  The resolver argument stands for resolveHandle,
which returns the DID on success and throws on failure. -/
def processFeature (resolve : String → Except String String) :
    Feature → Option Feature
  | Feature.mention did =>
    if did = "" then some (Feature.mention did)
    else
      match resolve did with
      | Except.ok d => some (Feature.mention d)
      | Except.error _ => none
  | f => some f

/-- Per-facet step of resolveMentionFacets: the facet keeps the
features that survive processing, and is itself kept only if at least
one feature remains. -/
def keepFacet (resolve : String → Except String String) (f : Facet) :
    Option Facet :=
  if f.features.filterMap (processFeature resolve) = [] then none
  else some { f with features := f.features.filterMap (processFeature resolve) }

/-- Translation of resolveMentionFacets: the per-facet step applied to
each facet in order. -/
def resolveMentionFacets (resolve : String → Except String String)
    (facets : List Facet) : List Facet :=
  facets.filterMap (keepFacet resolve)

/-! ## Message length (translated from calculateMessageLength in
src/strategies/bluesky.js, lines 441-447) -/

/-- Replacement pass of calculateMessageLength: each match of the URL
regular expression whose JavaScript length (UTF-16 code units) exceeds
27 is replaced by 27 letters x, and shorter matches stay unchanged.
The fuel argument is the length of the remaining input. -/
def urlAdjust : Nat → List Char → List Char
  | 0, cs => cs
  | _ + 1, [] => []
  | fuel + 1, c :: cs =>
    if urlStart (c :: cs) then
      (if 27 < utf16Len ((c :: cs).takeWhile (fun x => !isWs x)) then
          List.replicate 27 'x'
        else (c :: cs).takeWhile (fun x => !isWs x)) ++
        urlAdjust fuel ((c :: cs).dropWhile (fun x => !isWs x))
    else c :: urlAdjust fuel cs

/-- Translation of calculateMessageLength: the code-point count (the
JavaScript spread of the string) of the URL-adjusted text. -/
def calculateMessageLength (message : String) : Nat :=
  (urlAdjust message.data.length message.data).length

/-- Advertised maximum post length from src/strategies/bluesky.js. -/
def MAX_MESSAGE_LENGTH : Nat := 300

/-- Length computation following the words of the claim: URL tokens
whose character (Unicode scalar) count exceeds 27 contribute exactly 27,
shorter URL tokens contribute their character count, and every other
character contributes one. -/
def claimLengthAux : Nat → List Char → Nat
  | 0, cs => cs.length
  | _ + 1, [] => 0
  | fuel + 1, c :: cs =>
    if urlStart (c :: cs) then
      (if 27 < ((c :: cs).takeWhile (fun x => !isWs x)).length then 27
        else ((c :: cs).takeWhile (fun x => !isWs x)).length) +
        claimLengthAux fuel ((c :: cs).dropWhile (fun x => !isWs x))
    else 1 + claimLengthAux fuel cs

/-- Length computation following the words of the claim (scalar-count
truncation threshold). -/
def claimMessageLength (message : String) : Nat :=
  claimLengthAux message.data.length message.data

/-- Amended length specification: same as the claim except that the
truncation threshold compares the UTF-16 code-unit length of the URL
token, as the JavaScript length property does. -/
def amendedLengthAux : Nat → List Char → Nat
  | 0, cs => cs.length
  | _ + 1, [] => 0
  | fuel + 1, c :: cs =>
    if urlStart (c :: cs) then
      (if 27 < utf16Len ((c :: cs).takeWhile (fun x => !isWs x)) then 27
        else ((c :: cs).takeWhile (fun x => !isWs x)).length) +
        amendedLengthAux fuel ((c :: cs).dropWhile (fun x => !isWs x))
    else 1 + amendedLengthAux fuel cs

/-- Amended length specification at the string level. -/
def amendedMessageLength (message : String) : Nat :=
  amendedLengthAux message.data.length message.data

/-! ## Strategy construction and response URL (translated from
BlueskyStrategy in src/strategies/bluesky.js) -/

/-- Construction options; a missing field models an undefined value and
an empty string models the other falsy string. -/
structure BlueskyOptions where
  identifier : Option String
  password : Option String
  host : Option String

/-- Truth of the JavaScript negation on an optional string: missing or
empty strings are falsy. -/
def falsyStr : Option String → Bool
  | none => true
  | some s => s = ""

/-- A validated strategy configuration. -/
structure StrategyCfg where
  identifier : String
  password : String
  host : String
deriving DecidableEq, Repr

/-- Translation of the BlueskyStrategy constructor (lines 416-432):
each missing credential fails fast with an error naming the field, in
source order, before anything else happens. -/
def mkBlueskyStrategy (o : BlueskyOptions) : Except String StrategyCfg :=
  if falsyStr o.identifier then Except.error "Missing identifier."
  else if falsyStr o.password then Except.error "Missing password."
  else if falsyStr o.host then Except.error "Missing host."
  else Except.ok ⟨o.identifier.getD "", o.password.getD "", o.host.getD ""⟩

/-- Response of a create-record call, keeping the fields the code
reads; a missing uri models both an absent field and undefined. -/
structure RecordResponse where
  uri : Option String
  cid : String
deriving DecidableEq, Repr

/-- Characters after the last slash of a character list: the last
element of the JavaScript split on slash. -/
def afterLastSlash (cs : List Char) : List Char :=
  cs.foldl (fun acc c => if c = '/' then [] else acc ++ [c]) []

/-- Last segment of a slash-separated string, as the JavaScript split
plus last-element indexing computes it. -/
def lastSegment (s : String) : String := String.mk (afterLastSlash s.data)

/-- Translation of getUrlFromResponse (lines 471-485): a missing
response, a missing uri or an empty uri (all falsy) raise the not-found
error; otherwise the web URL is assembled from the fixed bsky.app host,
the construction-time identifier and the last segment of the uri. -/
def getUrlFromResponse (cfg : StrategyCfg) (response : Option RecordResponse) :
    Except String String :=
  match response with
  | none => Except.error "Post URI not found in response"
  | some r =>
    match r.uri with
    | none => Except.error "Post URI not found in response"
    | some u =>
      if u = "" then Except.error "Post URI not found in response"
      else
        Except.ok
          ("https://bsky.app/profile/" ++ cfg.identifier ++ "/post/" ++
            lastSegment u)

/-! ## Post options and their validation -/

/-- Payload of one attached image: concrete bytes, or some other value
that is not a byte array. -/
inductive ImagePayload where
  | bytes (data : List Nat)
  | notBytes
deriving DecidableEq, Repr

/-- One image entry of the post options. -/
structure ImageSpec where
  data : Option ImagePayload
  alt : Option String
deriving DecidableEq, Repr

/-- The images field of the post options: absent, present but not an
array, or an array of image entries. -/
inductive ImagesField where
  | absent
  | notArray
  | arr (images : List ImageSpec)
deriving DecidableEq, Repr

/-- Call-time post options.  The cancellation signal is omitted: its
effect lives in the fetch runtime, outside the translated code. -/
structure PostOptions where
  images : ImagesField
deriving DecidableEq, Repr

/-- Modelled from the spec: validation of one image entry — an image
must carry a concrete byte-array payload (spec section 4.5 item 2); the
error strings are the ones asserted by
src/tests/strategies/bluesky.test.js. -/
def validateImage (img : ImageSpec) : Except String Unit :=
  match img.data with
  | none => Except.error "Image must have data."
  | some ImagePayload.notBytes => Except.error "Image data must be a Uint8Array."
  | some (ImagePayload.bytes _) => Except.ok ()

/-- Modelled from the spec: validation of an image list, failing on the
first bad entry. -/
def validateImages : List ImageSpec → Except String Unit
  | [] => Except.ok ()
  | img :: rest =>
    match validateImage img with
    | Except.error e => Except.error e
    | Except.ok _ => validateImages rest

/-- Modelled from the spec: validatePostOptions (src/util/options.js) is
imported by src/strategies/bluesky.js but its implementation file is not
among the sources.  Following spec section 4.5 item 2 and the test
expectations, absent options and absent images pass, a non-array images
field is rejected, and each image must carry concrete bytes. -/
def validatePostOptions (opts : Option PostOptions) : Except String Unit :=
  match opts with
  | none => Except.ok ()
  | some o =>
    match o.images with
    | ImagesField.absent => Except.ok ()
    | ImagesField.notArray => Except.error "images must be an array."
    | ImagesField.arr l => validateImages l

/-! ## The post pipeline with its network trace (translated from post
and postMessage in src/strategies/bluesky.js) -/

/-- Session data returned by createSession; only the fields the code
reads afterwards. -/
structure Session where
  did : String
  accessJwt : String
deriving DecidableEq, Repr

/-- Response of a successful create-record call in the pipeline model. -/
structure CreateRecordResponse where
  uri : String
  cid : String
deriving DecidableEq, Repr

/-- Record body assembled by postMessage; the wall-clock createdAt
stamp and the aspect ratio decoded by the external image-size library
are omitted as environment effects.  An empty embed list models the
absent embed field. -/
structure PostRecord where
  text : String
  facets : List Facet
  embeds : List (String × String)
deriving DecidableEq, Repr

/-- One network request issued by the pipeline. -/
inductive Request where
  | createSession
  | resolveHandle (handle : String)
  | uploadBlob (data : List Nat)
  | createRecord
deriving DecidableEq, Repr

/-- Network oracle: the outcome each endpoint would return, standing
for the fetch calls of the source.  An error value models a non-success
HTTP response turned into a thrown error. -/
structure NetOracle where
  createSession : Except String Session
  resolveHandle : String → Except String String
  uploadBlob : List Nat → Except String String
  createRecord : PostRecord → Except String CreateRecordResponse

/-- Resolve-handle requests the mention resolver issues: one per
mention feature with a non-empty did field, in facet order, exactly the
loop structure of resolveMentionFacets. -/
def mentionRequests (facets : List Facet) : List Request :=
  facets.flatMap fun f =>
    f.features.filterMap fun ft =>
      match ft with
      | Feature.mention did =>
        if did = "" then none else some (Request.resolveHandle did)
      | _ => none

/-- Sequential image upload from postMessage: each image uploads in
turn and a failed upload aborts the remainder, exactly as the awaited
loop in the source does.  Returns the requests issued and either the
embed list or the first error. -/
def uploadAll (net : NetOracle) :
    List ImageSpec → List Request × Except String (List (String × String))
  | [] => ([], Except.ok [])
  | img :: rest =>
    match img.data with
    | some (ImagePayload.bytes b) =>
      (match net.uploadBlob b with
       | Except.error e => ([Request.uploadBlob b], Except.error e)
       | Except.ok ref =>
         (Request.uploadBlob b :: (uploadAll net rest).1,
           match (uploadAll net rest).2 with
           | Except.error e => Except.error e
           | Except.ok l => Except.ok ((img.alt.getD "", ref) :: l)))
    | _ => ([], Except.error "Image must have data.")

/-- Images carried by the options, as postMessage reads them. -/
def imagesOf (opts : Option PostOptions) : List ImageSpec :=
  match opts with
  | some o =>
    match o.images with
    | ImagesField.arr l => l
    | _ => []
  | none => []

/-- Translation of postMessage (lines 297-374) given an established
session: detect facets over the message, resolve mentions, upload
images, then create the record.  Returns the issued requests and the
outcome. -/
def postAfterSession (net : NetOracle) (message : String)
    (opts : Option PostOptions) :
    List Request × Except String CreateRecordResponse :=
  let d := detectFacets message
  let rReqs := mentionRequests d.facets
  let facets := resolveMentionFacets net.resolveHandle d.facets
  match (uploadAll net (imagesOf opts)).2 with
  | Except.error e => (rReqs ++ (uploadAll net (imagesOf opts)).1, Except.error e)
  | Except.ok embeds =>
    (rReqs ++ (uploadAll net (imagesOf opts)).1 ++ [Request.createRecord],
      net.createRecord ⟨d.text, facets, embeds⟩)

/-- Translation of BlueskyStrategy.post (lines 455-464): reject a
missing message, then validate the options, both before any network
request; only then create a session and run postMessage. -/
def post (net : NetOracle) (message : String) (opts : Option PostOptions) :
    List Request × Except String CreateRecordResponse :=
  if message = "" then ([], Except.error "Missing message to post.")
  else
    match validatePostOptions opts with
    | Except.error e => ([], Except.error e)
    | Except.ok _ =>
      match net.createSession with
      | Except.error e => ([Request.createSession], Except.error e)
      | Except.ok _ =>
        (Request.createSession :: (postAfterSession net message opts).1,
          (postAfterSession net message opts).2)

/-! ## Broadcaster, modelled from the spec -/

/-- Outcome of one adapter, aligned with the success and failure shapes
of the spec (section 3 PostResult). -/
inductive PostResult where
  | ok (adapterId : String) (response : String)
  | failed (adapterId : String) (reason : String)
deriving DecidableEq, Repr

/-- Modelled from the spec: an adapter as the broadcaster sees it — a
stable id, a display name, and the settled outcome its post call would
produce for a message (src/client.js is not among the sources; shape
from spec sections 4.1 and 6 and the usage in src/bin.js). -/
structure MAdapter where
  id : String
  name : String
  outcome : String → Except String String

/-- Settled result of one adapter for one message. -/
def resultOf (a : MAdapter) (msg : String) : PostResult :=
  match a.outcome msg with
  | Except.ok r => PostResult.ok a.id r
  | Except.error e => PostResult.failed a.id e

/-- Modelled from the spec: the broadcaster output — one settled result
per adapter, aligned index-for-index with the input list. -/
def broadcast (adapters : List MAdapter) (msg : String) : List PostResult :=
  adapters.map fun a => resultOf a msg

/-- Completion-order run: the adapters settle in the order given by the
schedule (a list of indices), producing index-tagged results in
completion order. -/
def runOrder (adapters : List MAdapter) (msg : String)
    (order : List Nat) : List (Nat × PostResult) :=
  order.filterMap fun i => (adapters[i]?).map fun a => (i, resultOf a msg)

/-- Re-sequencing of completion-order results back into input order, as
the spec requires the broadcaster to do. -/
def resequence (n : Nat) (completed : List (Nat × PostResult)) :
    List (Option PostResult) :=
  (List.range n).map fun i => (completed.find? fun p => p.1 == i).map Prod.snd

/-! ## Concrete resolvers and oracles used in theorem statements -/

/-- Resolver in which alice and bob.example.com both resolve, with the
DIDs of the test fixtures. -/
def resolveAB : String → Except String String := fun h =>
  if h = "alice" then Except.ok "did:plc:alice123"
  else if h = "bob.example.com" then Except.ok "did:plc:bob456"
  else Except.error "Handle not found"

/-- Resolver in which only alice resolves. -/
def resolveMixed : String → Except String String := fun h =>
  if h = "alice" then Except.ok "did:plc:alice123"
  else Except.error "Handle not found"

/-- Fixed create-record response used by the oracles below. -/
def happyResponse : CreateRecordResponse :=
  ⟨"at://did:plc:abcxyz/app.bsky.feed.post/abcxyz", "cid123"⟩

/-- Oracle in which every endpoint succeeds. -/
def happyNet : NetOracle where
  createSession := Except.ok ⟨"did:plc:me", "jwt"⟩
  resolveHandle := fun h => Except.ok ("did:plc:" ++ h)
  uploadBlob := fun _ => Except.ok "blobref"
  createRecord := fun _ => Except.ok happyResponse

/-- Oracle in which every endpoint succeeds except that only the handle
alice resolves. -/
def mixedNet : NetOracle where
  createSession := Except.ok ⟨"did:plc:me", "jwt"⟩
  resolveHandle := resolveMixed
  uploadBlob := fun _ => Except.ok "blobref"
  createRecord := fun _ => Except.ok happyResponse

/-! ## Supporting lemmas -/

/-- An image list containing an entry without concrete bytes fails
validation with some error. -/
lemma validateImages_error (l : List ImageSpec)
    (h : ∃ img ∈ l, img.data = none ∨ img.data = some ImagePayload.notBytes) :
    ∃ e, validateImages l = Except.error e := by
  induction l with
  | nil => rcases h with ⟨img, hm, _⟩; cases hm
  | cons img rest ih =>
    rcases h with ⟨bad, hm, hbad⟩
    rcases List.mem_cons.1 hm with rfl | hmem
    · rcases hbad with h1 | h1
      · exact ⟨"Image must have data.",
          by simp [validateImages, validateImage, h1]⟩
      · exact ⟨"Image data must be a Uint8Array.",
          by simp [validateImages, validateImage, h1]⟩
    · cases hdata : img.data with
      | none => exact ⟨"Image must have data.",
          by simp [validateImages, validateImage, hdata]⟩
      | some p =>
        cases p with
        | notBytes => exact ⟨"Image data must be a Uint8Array.",
            by simp [validateImages, validateImage, hdata]⟩
        | bytes b =>
          rcases ih ⟨bad, hmem, hbad⟩ with ⟨e, he⟩
          exact ⟨e, by simp [validateImages, validateImage, hdata, he]⟩

/-! ## Claim theorems -/

/-- C2: Facet offsets are indices into the UTF-8 byte sequence of the
possibly truncation-rewritten text.  For the input with one bare URL the
detector returns the text unchanged with exactly one link facet spanning
bytes 14 to 33 whose target is the URL; for the input with two mentions
that both resolve, the result has exactly two mention facets at byte
ranges 6-12 and 17-33, in that order; and for a text whose prefix holds
a two-byte character, the facet offset counts bytes, not characters. -/
theorem c2_facet_byte_offsets :
    detectFacets "Hello, world! https://example.com" =
      ⟨"Hello, world! https://example.com",
        [⟨14, 33, [Feature.link "https://example.com"]⟩]⟩ ∧
    detectFacets "Hello @alice and @bob.example.com!" =
      ⟨"Hello @alice and @bob.example.com!",
        [⟨6, 12, [Feature.mention "alice"]⟩,
          ⟨17, 33, [Feature.mention "bob.example.com"]⟩]⟩ ∧
    resolveMentionFacets resolveAB
        (detectFacets "Hello @alice and @bob.example.com!").facets =
      [⟨6, 12, [Feature.mention "did:plc:alice123"]⟩,
        ⟨17, 33, [Feature.mention "did:plc:bob456"]⟩] ∧
    ("é ".data.length = 2 ∧ utf8Len "é ".data = 3) ∧
    detectFacets "é https://x.y" =
      ⟨"é https://x.y", [⟨3, 14, [Feature.link "https://x.y"]⟩]⟩ := by
  refine ⟨by decide, by decide, by decide, ⟨by decide, by decide⟩, by decide⟩

/-- C8: validation errors are raised before any network request:
constructing a strategy with a missing identifier, password or host
fails with an error naming that field; posting an empty message, and
posting with an image that lacks a concrete byte payload, reject with
the validation error while the request trace stays empty. -/
theorem c8_validation_before_network :
    (∀ o : BlueskyOptions, falsyStr o.identifier = true →
      mkBlueskyStrategy o = Except.error "Missing identifier.") ∧
    (∀ o : BlueskyOptions, falsyStr o.identifier = false →
      falsyStr o.password = true →
      mkBlueskyStrategy o = Except.error "Missing password.") ∧
    (∀ o : BlueskyOptions, falsyStr o.identifier = false →
      falsyStr o.password = false → falsyStr o.host = true →
      mkBlueskyStrategy o = Except.error "Missing host.") ∧
    (∀ (net : NetOracle) (opts : Option PostOptions),
      post net "" opts = ([], Except.error "Missing message to post.")) ∧
    (∀ (net : NetOracle) (msg : String) (l : List ImageSpec),
      (∃ img ∈ l, img.data = none ∨ img.data = some ImagePayload.notBytes) →
      (post net msg (some ⟨ImagesField.arr l⟩)).1 = [] ∧
        ∃ e, (post net msg (some ⟨ImagesField.arr l⟩)).2 = Except.error e) := by
  refine ⟨?_, ?_, ?_, ?_, ?_⟩
  · intro o h1; simp [mkBlueskyStrategy, h1]
  · intro o h1 h2; simp [mkBlueskyStrategy, h1, h2]
  · intro o h1 h2 h3; simp [mkBlueskyStrategy, h1, h2, h3]
  · intro net opts; simp [post]
  · intro net msg l hbad
    rcases validateImages_error l hbad with ⟨e, he⟩
    by_cases hm : msg = ""
    · subst hm
      exact ⟨by simp [post], ⟨"Missing message to post.", by simp [post]⟩⟩
    · constructor
      · simp [post, hm, validatePostOptions, he]
      · exact ⟨e, by simp [post, hm, validatePostOptions, he]⟩

/-- C8 witness: concrete instances of every conjunct. -/
theorem c8_validation_before_network_witness :
    mkBlueskyStrategy ⟨none, some "pw", some "test.social"⟩ =
      Except.error "Missing identifier." ∧
    mkBlueskyStrategy ⟨some "testuser", some "", some "test.social"⟩ =
      Except.error "Missing password." ∧
    mkBlueskyStrategy ⟨some "testuser", some "pw", none⟩ =
      Except.error "Missing host." ∧
    post happyNet "" none = ([], Except.error "Missing message to post.") ∧
    (post happyNet "Hello world"
        (some ⟨ImagesField.arr [⟨none, some "test"⟩]⟩)).1 = [] ∧
    ∃ e, (post happyNet "Hello world"
        (some ⟨ImagesField.arr [⟨none, some "test"⟩]⟩)).2 = Except.error e := by
  refine ⟨?_, ?_, ?_, ?_, ?_, ?_⟩
  · exact c8_validation_before_network.1 _ (by decide)
  · exact c8_validation_before_network.2.1 _ (by decide) (by decide)
  · exact c8_validation_before_network.2.2.1 _ (by decide) (by decide) (by decide)
  · exact c8_validation_before_network.2.2.2.1 happyNet none
  · exact (c8_validation_before_network.2.2.2.2 happyNet "Hello world"
      [⟨none, some "test"⟩] ⟨⟨none, some "test"⟩, by simp, Or.inl rfl⟩).1
  · exact (c8_validation_before_network.2.2.2.2 happyNet "Hello world"
      [⟨none, some "test"⟩] ⟨⟨none, some "test"⟩, by simp, Or.inl rfl⟩).2

/-- C9 counterexample: a response whose uri field is present but empty
is rejected by getUrlFromResponse, although the claim promises a
returned URL for every response with a uri field. -/
theorem c9_url_counterexample :
    (some "" : Option String) ≠ none ∧
    getUrlFromResponse ⟨"testuser", "pw", "test.social"⟩
        (some ⟨some "", "cid123"⟩) =
      Except.error "Post URI not found in response" := by
  exact ⟨by decide, rfl⟩

/-- C9 amended: getUrlFromResponse errors for a null response, a
missing uri, or an empty uri; for every non-empty uri it returns the
bsky.app profile URL built from the construction-time identifier and the
substring of the uri after its last slash; and the configured host never
influences the result. -/
theorem c9_url_from_response :
    (∀ cfg : StrategyCfg,
      getUrlFromResponse cfg none =
        Except.error "Post URI not found in response") ∧
    (∀ (cfg : StrategyCfg) (r : RecordResponse), r.uri = none →
      getUrlFromResponse cfg (some r) =
        Except.error "Post URI not found in response") ∧
    (∀ (cfg : StrategyCfg) (r : RecordResponse), r.uri = some "" →
      getUrlFromResponse cfg (some r) =
        Except.error "Post URI not found in response") ∧
    (∀ (cfg : StrategyCfg) (r : RecordResponse) (u : String),
      r.uri = some u → u ≠ "" →
      getUrlFromResponse cfg (some r) =
        Except.ok ("https://bsky.app/profile/" ++ cfg.identifier ++ "/post/" ++
          lastSegment u)) ∧
    (∀ (cfg cfg2 : StrategyCfg) (r : Option RecordResponse),
      cfg.identifier = cfg2.identifier →
      getUrlFromResponse cfg r = getUrlFromResponse cfg2 r) := by
  refine ⟨fun cfg => rfl, ?_, ?_, ?_, ?_⟩
  · intro cfg r h; simp [getUrlFromResponse, h]
  · intro cfg r h; simp [getUrlFromResponse, h]
  · intro cfg r u h hu; simp [getUrlFromResponse, h, hu]
  · intro cfg cfg2 r h
    cases r with
    | none => rfl
    | some rr =>
      cases hu : rr.uri with
      | none => simp [getUrlFromResponse, hu]
      | some u => by_cases h0 : u = "" <;> simp [getUrlFromResponse, hu, h0, h]

/-- C9 witness: the amended theorem at the uri of the test fixture. -/
theorem c9_url_from_response_witness :
    getUrlFromResponse ⟨"testuser", "pw", "test.social"⟩
        (some ⟨some "at://did:plc:abcxyz/app.bsky.feed.post/123456789", "cid"⟩) =
      Except.ok "https://bsky.app/profile/testuser/post/123456789" := by
  have h := c9_url_from_response.2.2.2.1 ⟨"testuser", "pw", "test.social"⟩
    ⟨some "at://did:plc:abcxyz/app.bsky.feed.post/123456789", "cid"⟩
    "at://did:plc:abcxyz/app.bsky.feed.post/123456789" rfl (by decide)
  have h2 : lastSegment "at://did:plc:abcxyz/app.bsky.feed.post/123456789" =
      "123456789" := by decide
  rw [h2] at h
  exact h

/-- C10: post never enforces the maximum message length — for every
non-empty message with valid options the first network request is the
session creation, with no length check in between; and with an
all-success oracle a message longer than the advertised maximum still
reaches record creation and succeeds. -/
theorem c10_no_length_enforcement :
    (∀ (net : NetOracle) (msg : String) (opts : Option PostOptions),
      msg ≠ "" → validatePostOptions opts = Except.ok () →
      (post net msg opts).1.head? = some Request.createSession) ∧
    (∀ msg : String, msg ≠ "" →
      MAX_MESSAGE_LENGTH < calculateMessageLength msg →
      (post happyNet msg none).2 = Except.ok happyResponse ∧
        Request.createRecord ∈ (post happyNet msg none).1) := by
  constructor
  · intro net msg opts hm hv
    cases hs : net.createSession <;> simp [post, hm, hv, hs]
  · intro msg hm _
    have hsess : happyNet.createSession = Except.ok ⟨"did:plc:me", "jwt"⟩ := rfl
    constructor
    · simp [post, hm, validatePostOptions, hsess, postAfterSession, imagesOf,
        uploadAll, happyNet]
    · simp [post, hm, validatePostOptions, hsess, postAfterSession, imagesOf,
        uploadAll, List.mem_append]

set_option maxRecDepth 8000 in
/-- C10 witness: a 350-character message, whose calculated length
exceeds the advertised maximum of 300, posts successfully. -/
theorem c10_no_length_enforcement_witness :
    MAX_MESSAGE_LENGTH < calculateMessageLength (String.mk (List.replicate 350 'a')) ∧
    (post happyNet (String.mk (List.replicate 350 'a')) none).2 =
      Except.ok happyResponse ∧
    Request.createRecord ∈ (post happyNet (String.mk (List.replicate 350 'a')) none).1 ∧
    (post happyNet (String.mk (List.replicate 350 'a')) none).1.head? =
      some Request.createSession := by
  have h1 : MAX_MESSAGE_LENGTH <
      calculateMessageLength (String.mk (List.replicate 350 'a')) := by decide
  have h2 := c10_no_length_enforcement.2 (String.mk (List.replicate 350 'a'))
    (by decide) h1
  have h3 := c10_no_length_enforcement.1 happyNet
    (String.mk (List.replicate 350 'a')) none (by decide) rfl
  exact ⟨h1, h2.1, h2.2, h3⟩

/-! ## Lemmas about the URL scan -/

/-- A URL match always begins with the letter h. -/
lemma urlStart_head {c : Char} {cs : List Char}
    (h : urlStart (c :: cs) = true) : c = 'h' := by
  simp only [urlStart, httpsChars, httpChars, List.isPrefixOf, Bool.or_eq_true,
    Bool.and_eq_true, beq_iff_eq] at h
  rcases h with ⟨⟨h1, _⟩, _⟩ | ⟨⟨h1, _⟩, _⟩ <;> exact h1.symm

/-- The head of a URL match is not whitespace. -/
lemma urlStart_head_not_ws {c : Char} {cs : List Char}
    (h : urlStart (c :: cs) = true) : (!isWs c) = true := by
  rw [urlStart_head h]; decide

/-- Dropping a while-prefix never lengthens a list. -/
lemma length_dropWhile_le (p : α → Bool) :
    ∀ l : List α, (l.dropWhile p).length ≤ l.length := by
  intro l
  induction l with
  | nil => simp
  | cons a l ih =>
    rw [List.dropWhile_cons]
    by_cases h : p a = true
    · simp only [h, if_true]
      exact Nat.le_trans ih (Nat.le_succ _)
    · simp [h]

/-- The non-whitespace remainder after a URL match is shorter than the
match input. -/
lemma urlRest_length_le {c : Char} {cs : List Char}
    (h : urlStart (c :: cs) = true) :
    ((c :: cs).dropWhile (fun x => !isWs x)).length ≤ cs.length := by
  rw [List.dropWhile_cons, if_pos (urlStart_head_not_ws h)]
  exact length_dropWhile_le _ cs

/-- The length of the URL-adjusted text equals the amended length
specification, for sufficient fuel. -/
lemma urlAdjust_length :
    ∀ (fuel : Nat) (cs : List Char), cs.length ≤ fuel →
      (urlAdjust fuel cs).length = amendedLengthAux fuel cs := by
  intro fuel
  induction fuel with
  | zero =>
    intro cs h
    have hnil : cs = [] := List.eq_nil_of_length_eq_zero (Nat.le_zero.1 h)
    subst hnil; rfl
  | succ f ih =>
    intro cs h
    cases cs with
    | nil => rfl
    | cons c cs' =>
      by_cases hu : urlStart (c :: cs') = true
      · have hdrop : ((c :: cs').dropWhile (fun x => !isWs x)).length ≤ f :=
          Nat.le_trans (urlRest_length_le hu) (Nat.le_of_succ_le_succ h)
        simp only [urlAdjust, amendedLengthAux, hu, if_true]
        rw [List.length_append, ih _ hdrop]
        by_cases h27 : 27 < utf16Len ((c :: cs').takeWhile (fun x => !isWs x))
        · simp [h27]
        · simp [h27]
      · simp only [urlAdjust, amendedLengthAux, hu, if_false, Bool.false_eq_true]
        rw [List.length_cons, ih cs' (Nat.le_of_succ_le_succ h)]
        omega

/-- C7 counterexample: a URL of 18 Unicode scalar values (8 ASCII plus
10 emoji) has a claimed length of 18, since its character count does not
exceed 27, yet calculateMessageLength replaces it with the 27-character
placeholder because its UTF-16 code-unit count is 28. -/
theorem c7_length_counterexample :
    "https://😀😀😀😀😀😀😀😀😀😀".data.length = 18 ∧
    claimMessageLength "https://😀😀😀😀😀😀😀😀😀😀" = 18 ∧
    calculateMessageLength "https://😀😀😀😀😀😀😀😀😀😀" = 27 := by
  exact ⟨by decide, by decide, by decide⟩

/-- C7 amended: calculateMessageLength counts display length by Unicode
scalar value after replacing each URL token whose UTF-16 code-unit
length (the JavaScript length) exceeds 27 with a placeholder
contributing exactly 27; URL tokens at or below that threshold
contribute their scalar count. -/
theorem c7_length_by_scalar :
    ∀ message : String,
      calculateMessageLength message = amendedMessageLength message := by
  intro message
  exact urlAdjust_length message.data.length message.data (Nat.le_refl _)

/-! ## Structural invariants of the facet detector -/

/-- Wellformedness of one token: a URL token is never empty (it always
holds at least the scheme prefix). -/
def tokWf : Tok → Prop
  | Tok.url raw => raw ≠ []
  | _ => True

/-- UTF-8 length distributes over concatenation. -/
lemma utf8Len_append (a b : List Char) :
    utf8Len (a ++ b) = utf8Len a + utf8Len b := by
  simp [utf8Len]

/-- A non-empty character sequence has positive UTF-8 length. -/
lemma utf8Len_pos {l : List Char} (h : l ≠ []) : 0 < utf8Len l := by
  cases l with
  | nil => cases h rfl
  | cons c t =>
    have : 0 < c.utf8Size := Char.utf8Size_pos c
    simp only [utf8Len, List.map_cons, List.sum_cons]
    omega

/-- The display form of a non-empty URL token is non-empty. -/
lemma renderUrl_ne_nil {raw : List Char} (h : raw ≠ []) :
    renderUrl raw ≠ [] := by
  unfold renderUrl
  by_cases h27 : 27 < raw.length
  · simp [h27, ellipsisChars]
  · simpa [h27] using h

/-- Shape of the facet a token emits: either none, or a facet spanning
exactly the non-empty display characters of the token starting at the
given offset. -/
lemma emitTok_facet (off : Nat) (t : Tok) (hw : tokWf t) :
    (emitTok off t).2 = none ∨
    ((emitTok off t).1 ≠ [] ∧ ∃ fs, (emitTok off t).2 =
      some ⟨off, off + utf8Len (emitTok off t).1, fs⟩) := by
  cases t with
  | plain c => exact Or.inl rfl
  | url raw =>
    exact Or.inr ⟨renderUrl_ne_nil hw, [Feature.link (String.mk raw)], rfl⟩
  | mention h =>
    exact Or.inr ⟨by simp [emitTok], [Feature.mention (String.mk h)], rfl⟩

/-- Every facet emitted from the given offset on lies inside the byte
range of the emitted text, with a positive width. -/
lemma emitAll_bounds :
    ∀ (toks : List Tok) (off : Nat), (∀ t ∈ toks, tokWf t) →
      ∀ f ∈ (emitAll off toks).2,
        off ≤ f.byteStart ∧ f.byteStart < f.byteEnd ∧
        f.byteEnd ≤ off + utf8Len (emitAll off toks).1 := by
  intro toks
  induction toks with
  | nil => intro off _ f hf; simp [emitAll] at hf
  | cons t ts ih =>
    intro off hw f hf
    have hwt : tokWf t := hw t (by simp)
    have hwts : ∀ u ∈ ts, tokWf u := fun u hu => hw u (by simp [hu])
    have hmem : f ∈ (emitTok off t).2.toList ++
        (emitAll (off + utf8Len (emitTok off t).1) ts).2 := by
      simpa [emitAll] using hf
    have hlen : utf8Len (emitAll off (t :: ts)).1 =
        utf8Len (emitTok off t).1 +
          utf8Len (emitAll (off + utf8Len (emitTok off t).1) ts).1 := by
      simp [emitAll, utf8Len_append]
    rcases List.mem_append.1 hmem with h1 | h2
    · rcases emitTok_facet off t hwt with hn | ⟨hne, fs, hs⟩
      · rw [hn] at h1; simp at h1
      · rw [hs] at h1
        simp only [Option.toList_some, List.mem_singleton] at h1
        subst h1
        refine ⟨Nat.le_refl _, ?_, ?_⟩
        · exact Nat.lt_add_of_pos_right (utf8Len_pos hne)
        · show off + utf8Len (emitTok off t).1 ≤
            off + utf8Len (emitAll off (t :: ts)).1
          rw [hlen]; omega
    · have h := ih (off + utf8Len (emitTok off t).1) hwts f h2
      refine ⟨Nat.le_trans (Nat.le_add_right _ _) h.1, h.2.1, ?_⟩
      rw [hlen]; omega

/-- Facets are emitted in non-overlapping ascending order. -/
lemma emitAll_pairwise :
    ∀ (toks : List Tok) (off : Nat), (∀ t ∈ toks, tokWf t) →
      List.Pairwise (fun a b => a.byteEnd ≤ b.byteStart)
        (emitAll off toks).2 := by
  intro toks
  induction toks with
  | nil => intro off _; simp [emitAll]
  | cons t ts ih =>
    intro off hw
    have hwt : tokWf t := hw t (by simp)
    have hwts : ∀ u ∈ ts, tokWf u := fun u hu => hw u (by simp [hu])
    have hrec := ih (off + utf8Len (emitTok off t).1) hwts
    have hgoal : List.Pairwise (fun a b => a.byteEnd ≤ b.byteStart)
        ((emitTok off t).2.toList ++
          (emitAll (off + utf8Len (emitTok off t).1) ts).2) := by
      rcases emitTok_facet off t hwt with hn | ⟨_, fs, hs⟩
      · rw [hn]; simpa using hrec
      · rw [hs]
        simp only [Option.toList_some, List.singleton_append, List.pairwise_cons]
        refine ⟨?_, hrec⟩
        intro g hg
        have h := emitAll_bounds ts (off + utf8Len (emitTok off t).1) hwts g hg
        exact h.1
    simpa [emitAll] using hgoal

/-- Every token the scanner produces is wellformed. -/
lemma tokenize_wf :
    ∀ (fuel : Nat) (bnd : Bool) (cs : List Char),
      ∀ t ∈ tokenize fuel bnd cs, tokWf t := by
  intro fuel
  induction fuel with
  | zero => intro bnd cs t ht; simp [tokenize] at ht
  | succ f ih =>
    intro bnd cs t ht
    cases cs with
    | nil => simp [tokenize] at ht
    | cons c cs' =>
      by_cases hu : urlStart (c :: cs') = true
      · simp only [tokenize, hu, if_true, List.mem_cons] at ht
        rcases ht with rfl | ht
        · show (c :: cs').takeWhile (fun x => !isWs x) ≠ []
          rw [List.takeWhile_cons, if_pos (urlStart_head_not_ws hu)]
          simp
        · exact ih false _ t ht
      · by_cases hm :
          (bnd && c == '@' && !(cs'.takeWhile isHandleChar).isEmpty) = true
        · simp only [tokenize, hu, hm, if_true, Bool.false_eq_true, if_false,
            List.mem_cons] at ht
          rcases ht with rfl | ht
          · trivial
          · exact ih false _ t ht
        · simp only [tokenize, hu, hm, Bool.false_eq_true, if_false,
            List.mem_cons] at ht
          rcases ht with rfl | ht
          · trivial
          · exact ih (isWs c) _ t ht

/-- C4: every facet list produced by the facet detector is mutually
non-overlapping with ascending byte starts (touching spans allowed),
every facet has a positive width ending within the UTF-8 byte length of
the returned text, and empty text yields an empty facet list. -/
theorem c4_facet_invariants :
    ∀ message : String,
      List.Pairwise (fun a b => a.byteEnd ≤ b.byteStart)
        (detectFacets message).facets ∧
      List.Pairwise (fun a b => a.byteStart < b.byteStart)
        (detectFacets message).facets ∧
      (∀ f ∈ (detectFacets message).facets,
        f.byteStart < f.byteEnd ∧
        f.byteEnd ≤ utf8Len (detectFacets message).text.data) ∧
      (detectFacets "").facets = [] := by
  intro message
  have hwf := tokenize_wf message.data.length true message.data
  have hpw := emitAll_pairwise _ 0 hwf
  have hbd := emitAll_bounds _ 0 hwf
  refine ⟨hpw, ?_, ?_, rfl⟩
  · refine List.Pairwise.imp_of_mem ?_ hpw
    intro a b ha hb hab
    exact Nat.lt_of_lt_of_le (hbd a ha).2.1 hab
  · intro f hf
    have h := hbd f hf
    exact ⟨h.2.1, by simpa using h.2.2⟩

/-- C4 witness: the invariants evaluated on a concrete message with a
two-byte character before the link. -/
theorem c4_facet_invariants_witness :
    (3 : Nat) < 14 ∧
    14 ≤ utf8Len (detectFacets "é https://x.y").text.data := by
  have h := (c4_facet_invariants "é https://x.y").2.2.1
    ⟨3, 14, [Feature.link "https://x.y"]⟩ (by decide)
  exact ⟨h.1, h.2⟩

/-! ## URL truncation (C3) -/

/-- C3: a URL token of at most 27 characters is rendered unchanged in
the transmitted text; a longer one is rendered as its first 24
characters plus the 3-character ellipsis marker, exactly 27 characters
in total, while the emitted link facet always targets the full original
URL; shown in general over the renderer and end-to-end on a
27-character and a 28-character URL. -/
theorem c3_url_truncation :
    (∀ raw : List Char, raw.length ≤ 27 → renderUrl raw = raw) ∧
    (∀ raw : List Char, 27 < raw.length →
      renderUrl raw = raw.take 24 ++ ellipsisChars ∧
        (renderUrl raw).length = 27) ∧
    (∀ (off : Nat) (raw : List Char),
      (emitTok off (Tok.url raw)).2 =
        some ⟨off, off + utf8Len (renderUrl raw),
          [Feature.link (String.mk raw)]⟩) ∧
    detectFacets "https://example.com/abcdefg" =
      ⟨"https://example.com/abcdefg",
        [⟨0, 27, [Feature.link "https://example.com/abcdefg"]⟩]⟩ ∧
    detectFacets "https://example.com/abcdefgh" =
      ⟨"https://example.com/abcd...",
        [⟨0, 27, [Feature.link "https://example.com/abcdefgh"]⟩]⟩ := by
  refine ⟨?_, ?_, fun off raw => rfl, by decide, by decide⟩
  · intro raw h
    have : ¬ 27 < raw.length := Nat.not_lt.2 h
    simp [renderUrl, this]
  · intro raw h
    refine ⟨by simp [renderUrl, h], ?_⟩
    have hmin : min 24 raw.length = 24 := Nat.min_eq_left (by omega)
    simp [renderUrl, h, ellipsisChars, List.length_take, hmin]

/-- C3 witness: the renderer evaluated at a 19-character URL and a
28-character URL. -/
theorem c3_url_truncation_witness :
    renderUrl "https://example.com".data = "https://example.com".data ∧
    renderUrl "https://example.com/abcdefgh".data =
      "https://example.com/abcdefgh".data.take 24 ++ ellipsisChars ∧
    (renderUrl "https://example.com/abcdefgh".data).length = 27 := by
  have h := c3_url_truncation.2.1 "https://example.com/abcdefgh".data (by decide)
  exact ⟨c3_url_truncation.1 "https://example.com".data (by decide), h.1, h.2⟩

/-! ## Mention resolution behaviour (C5) -/

/-- Resolve-or-drop step stated by the claim for single-mention facets:
a facet whose single mention resolves survives with its byte span
unchanged and its did replaced; a facet whose single mention fails to
resolve is dropped. -/
def dropOrResolve (resolve : String → Except String String) (f : Facet) :
    Option Facet :=
  match f.features with
  | [Feature.mention h] =>
    match resolve h with
    | Except.ok d => some { f with features := [Feature.mention d] }
    | Except.error _ => none
  | _ => none

/-- A kept facet retains the byte span of its source facet. -/
lemma keepFacet_span {resolve : String → Except String String}
    {f x : Facet} (h : keepFacet resolve f = some x) :
    x.byteStart = f.byteStart ∧ x.byteEnd = f.byteEnd := by
  unfold keepFacet at h
  split at h
  · cases h
  · cases h; exact ⟨rfl, rfl⟩

/-- C5: on facets that each carry a single mention feature with a
non-empty handle, the resolver keeps exactly those whose lookup
succeeds (with span unchanged and did replaced) and drops exactly those
whose lookup fails; surviving facets always retain ascending byteStart
order; and concretely, with one resolvable and one unresolvable mention
the output has exactly the resolvable facet while the post still
succeeds after attempting both lookups. -/
theorem c5_mention_resolution_drops :
    (∀ (resolve : String → Except String String) (fs : List Facet),
      (∀ f ∈ fs, ∃ h, f.features = [Feature.mention h] ∧ h ≠ "") →
      resolveMentionFacets resolve fs = fs.filterMap (dropOrResolve resolve)) ∧
    (∀ (resolve : String → Except String String) (fs : List Facet),
      List.Pairwise (fun a b => a.byteStart < b.byteStart) fs →
      List.Pairwise (fun a b => a.byteStart < b.byteStart)
        (resolveMentionFacets resolve fs)) ∧
    resolveMentionFacets resolveMixed
        (detectFacets "Hello @alice and @nonexistent!").facets =
      [⟨6, 12, [Feature.mention "did:plc:alice123"]⟩] ∧
    (post mixedNet "Hello @alice and @nonexistent!" none).2 =
      Except.ok happyResponse ∧
    (post mixedNet "Hello @alice and @nonexistent!" none).1 =
      [Request.createSession, Request.resolveHandle "alice",
        Request.resolveHandle "nonexistent", Request.createRecord] := by
  refine ⟨?_, ?_, by decide, rfl, by decide⟩
  · intro resolve fs hall
    unfold resolveMentionFacets
    refine List.filterMap_congr ?_
    intro f hf
    rcases hall f hf with ⟨h, hfeat, hne⟩
    cases hres : resolve h with
    | ok d =>
      simp [keepFacet, dropOrResolve, hfeat, processFeature, hne, hres]
    | error e =>
      simp [keepFacet, dropOrResolve, hfeat, processFeature, hne, hres]
  · intro resolve fs hp
    unfold resolveMentionFacets
    refine List.Pairwise.filterMap _ ?_ hp
    intro a b hab x hx y hy
    have hx2 := keepFacet_span (Option.mem_def.1 hx)
    have hy2 := keepFacet_span (Option.mem_def.1 hy)
    rw [hx2.1, hy2.1]
    exact hab

/-- C5 witness: the two general conjuncts instantiated on the facet
list of the mixed-resolution example. -/
theorem c5_mention_resolution_drops_witness :
    resolveMentionFacets resolveMixed
        [⟨6, 12, [Feature.mention "alice"]⟩,
          ⟨17, 29, [Feature.mention "nonexistent"]⟩] =
      List.filterMap (dropOrResolve resolveMixed)
        [⟨6, 12, [Feature.mention "alice"]⟩,
          ⟨17, 29, [Feature.mention "nonexistent"]⟩] ∧
    List.Pairwise (fun a b => a.byteStart < b.byteStart)
      (resolveMentionFacets resolveMixed
        [⟨6, 12, [Feature.mention "alice"]⟩,
          ⟨17, 29, [Feature.mention "nonexistent"]⟩]) := by
  constructor
  · refine c5_mention_resolution_drops.1 resolveMixed _ ?_
    intro f hf
    simp only [List.mem_cons, List.not_mem_nil, or_false] at hf
    rcases hf with rfl | rfl
    · exact ⟨"alice", rfl, by decide⟩
    · exact ⟨"nonexistent", rfl, by decide⟩
  · refine c5_mention_resolution_drops.2.1 resolveMixed _ ?_
    simp [List.pairwise_cons]

/-! ## Broadcaster alignment (C1) -/

/-- First completed result tagged with index i is the settled outcome
of adapter i, for any schedule that mentions i. -/
lemma find_runOrder (adapters : List MAdapter) (msg : String) :
    ∀ (order : List Nat) (i : Nat) (a : MAdapter),
      adapters[i]? = some a → i ∈ order →
      (runOrder adapters msg order).find? (fun p => p.1 == i) =
        some (i, resultOf a msg) := by
  intro order
  induction order with
  | nil => intro i a _ hm; cases hm
  | cons k tl ih =>
    intro i a ha hm
    unfold runOrder
    rw [List.filterMap_cons]
    cases hk : adapters[k]? with
    | none =>
      have hki : k ≠ i := by
        intro h; rw [h, ha] at hk; cases hk
      have hmem : i ∈ tl := by
        rcases List.mem_cons.1 hm with h | h
        · exact absurd h.symm hki
        · exact h
      rw [Option.map_none']
      exact ih i a ha hmem
    | some ak =>
      rw [Option.map_some']
      by_cases hki : k = i
      · subst hki
        have hak : ak = a := by
          rw [ha] at hk; injection hk with h; exact h.symm
        subst hak
        rw [List.find?_cons_of_pos _ (by simp)]
      · have hmem : i ∈ tl := by
          rcases List.mem_cons.1 hm with h | h
          · exact absurd h.symm hki
          · exact h
        rw [List.find?_cons_of_neg _ (by simp [hki])]
        exact ih i a ha hmem

/-- C1: the broadcaster output has the length of the adapter list; for
every completion order (any permutation of the indices) the re-sequenced
results equal the index-aligned outcomes; and replacing one adapter —
for instance by a failing one — never changes any other adapter
outcome. -/
theorem c1_broadcast_aligned :
    (∀ (adapters : List MAdapter) (msg : String),
      (broadcast adapters msg).length = adapters.length) ∧
    (∀ (adapters : List MAdapter) (msg : String) (order : List Nat),
      order.Perm (List.range adapters.length) →
      resequence adapters.length (runOrder adapters msg order) =
        (broadcast adapters msg).map some) ∧
    (∀ (adapters : List MAdapter) (msg : String) (i j : Nat)
        (bad : MAdapter), i ≠ j →
      (broadcast (adapters.set i bad) msg)[j]? =
        (broadcast adapters msg)[j]?) := by
  refine ⟨?_, ?_, ?_⟩
  · intro adapters msg; simp [broadcast]
  · intro adapters msg order hperm
    refine List.ext_getElem? ?_
    intro n
    by_cases hn : n < adapters.length
    · have hmem : n ∈ order :=
        (hperm.mem_iff).2 (List.mem_range.2 hn)
      have ha : adapters[n]? = some adapters[n] := List.getElem?_eq_getElem hn
      have hfind := find_runOrder adapters msg order n adapters[n] ha hmem
      simp only [resequence, List.getElem?_map, List.getElem?_range hn,
        Option.map_some', hfind, broadcast, ha]
    · have h1 : (List.range adapters.length)[n]? = none :=
        List.getElem?_eq_none (by simpa using Nat.le_of_not_lt hn)
      have h3 : adapters[n]? = none :=
        List.getElem?_eq_none (Nat.le_of_not_lt hn)
      simp [resequence, broadcast, h1, h3]
  · intro adapters msg i j bad hij
    simp [broadcast, List.getElem?_map, List.getElem?_set_ne hij]

/-- Adapter that always succeeds with a fixed response. -/
def adapterA : MAdapter := ⟨"a", "A", fun _ => Except.ok "ra"⟩

/-- Adapter that always fails. -/
def adapterB : MAdapter := ⟨"b", "B", fun _ => Except.error "boom"⟩

/-- Second adapter that always succeeds. -/
def adapterC : MAdapter := ⟨"c", "C", fun _ => Except.ok "rc"⟩

/-- C1 witness: a three-adapter list with a failing middle adapter, run
in a scrambled completion order, re-sequences to the index-aligned
outcomes, and replacing the middle adapter leaves the first outcome
unchanged. -/
theorem c1_broadcast_aligned_witness :
    resequence 3 (runOrder [adapterA, adapterB, adapterC] "m" [2, 0, 1]) =
      [some (PostResult.ok "a" "ra"), some (PostResult.failed "b" "boom"),
        some (PostResult.ok "c" "rc")] ∧
    (broadcast ([adapterA, adapterB, adapterC].set 1 adapterB) "m")[0]? =
      (broadcast [adapterA, adapterB, adapterC] "m")[0]? := by
  constructor
  · exact c1_broadcast_aligned.2.1 [adapterA, adapterB, adapterC] "m"
      [2, 0, 1] (by decide)
  · exact c1_broadcast_aligned.2.2 [adapterA, adapterB, adapterC] "m" 1 0
      adapterB (by decide)

end Crosspost
